import Mathlib

/-!
# api2go: the contract surface of `api_interfaces.go`

The source file declares six Go interfaces and nothing else: `CRUD`,
`PaginatedFindAll`, `FindAll`, `URLResolver`, `RequestAwareURLResolver` and
`Responder`.  There is no function body in it.  The development has two layers
transcribed from the source:

* the *declarations* themselves, as data (`InterfaceDecl`, `methodSetOf`,
  `Implements`): what Go's structural typing sees;
* the *values* of the interfaces, as records of state-passing functions
  (`Responder`, `CRUD`, ...): what an implementation is.

What the framework does with a value of these interfaces is code outside the
file; where a property depends on it, the framework's part is modelled from the
spec (`classify`, `handleRequest`, `serve`) and marked so.
-/

set_option linter.dupNamespace false

namespace Api2go

/-! ## Layer 1: the declarations -/

/-- Go types occurring in the signatures of `api_interfaces.go`. -/
inductive GoType where
  | string
  | int
  | uint
  | error
  | emptyInterface
  | mapOf (key val : GoType)
  | named (name : String)
  deriving DecidableEq, Repr

/-- A method of an interface: name, parameter types, result types. -/
structure Method where
  name : String
  params : List GoType
  results : List GoType
  deriving DecidableEq, Repr

/-- An interface declaration: embedded interfaces (by name) and the methods
declared explicitly. -/
structure InterfaceDecl where
  name : String
  embeds : List String
  methods : List Method
  deriving DecidableEq, Repr

/-- Source line 11: `FindOne(ID string, req Request) (Responder, error)`. -/
def sigFindOne : Method :=
  ⟨"FindOne", [.string, .named "Request"], [.named "Responder", .error]⟩

/-- Source line 19: `Create(obj interface, req Request) (Responder, error)`. -/
def sigCreate : Method :=
  ⟨"Create", [.emptyInterface, .named "Request"], [.named "Responder", .error]⟩

/-- Source line 26: `Delete(id string, req Request) (Responder, error)`. -/
def sigDelete : Method :=
  ⟨"Delete", [.string, .named "Request"], [.named "Responder", .error]⟩

/-- Source line 33: `Update(obj interface, req Request) (Responder, error)`. -/
def sigUpdate : Method :=
  ⟨"Update", [.emptyInterface, .named "Request"], [.named "Responder", .error]⟩

/-- Source line 42:
`PaginatedFindAll(req Request) (totalCount uint, response Responder, err error)`. -/
def sigPaginatedFindAll : Method :=
  ⟨"PaginatedFindAll", [.named "Request"], [.uint, .named "Responder", .error]⟩

/-- Source line 48: `FindAll(req Request) (Responder, error)`. -/
def sigFindAll : Method :=
  ⟨"FindAll", [.named "Request"], [.named "Responder", .error]⟩

/-- Source line 55: `GetBaseURL() string`. -/
def sigGetBaseURL : Method :=
  ⟨"GetBaseURL", [], [.string]⟩

/-- Source line 71: `SetRequest(http.Request)`. -/
def sigSetRequest : Method :=
  ⟨"SetRequest", [.named "http.Request"], []⟩

/-- Source line 79: `Metadata() map[string]interface`. -/
def sigMetadata : Method :=
  ⟨"Metadata", [], [.mapOf .string .emptyInterface]⟩

/-- Source line 80: `Result() interface`. -/
def sigResult : Method :=
  ⟨"Result", [], [.emptyInterface]⟩

/-- Source line 81: `StatusCode() int`. -/
def sigStatusCode : Method :=
  ⟨"StatusCode", [], [.int]⟩

/-- Source lines 8-34. -/
def declCRUD : InterfaceDecl :=
  ⟨"CRUD", [], [sigFindOne, sigCreate, sigDelete, sigUpdate]⟩

/-- Source lines 41-43. -/
def declPaginatedFindAll : InterfaceDecl :=
  ⟨"PaginatedFindAll", [], [sigPaginatedFindAll]⟩

/-- Source lines 46-49. -/
def declFindAll : InterfaceDecl :=
  ⟨"FindAll", [], [sigFindAll]⟩

/-- Source lines 54-56. -/
def declURLResolver : InterfaceDecl :=
  ⟨"URLResolver", [], [sigGetBaseURL]⟩

/-- Source lines 69-72: embeds `URLResolver`, declares `SetRequest`. -/
def declRequestAwareURLResolver : InterfaceDecl :=
  ⟨"RequestAwareURLResolver", ["URLResolver"], [sigSetRequest]⟩

/-- Source lines 78-82. -/
def declResponder : InterfaceDecl :=
  ⟨"Responder", [], [sigMetadata, sigResult, sigStatusCode]⟩

/-- The interface declarations of the file, in source order. -/
def declarations : List InterfaceDecl :=
  [declCRUD, declPaginatedFindAll, declFindAll, declURLResolver,
   declRequestAwareURLResolver, declResponder]

/-- Method set recorded in a table under an interface name (empty when the
name is not in the table). -/
def lookupMethods (table : List (String × List Method)) (name : String) : List Method :=
  match table.find? (fun entry => entry.1 == name) with
  | some entry => entry.2
  | none => []

/-- Go's method set of each declared interface: the method sets of the embedded
interfaces followed by the methods declared explicitly.  Declarations are
resolved in order, an embedded interface being looked up among the earlier
ones. -/
def methodSets (decls : List InterfaceDecl) : List (String × List Method) :=
  decls.foldl
    (fun table d => table ++ [(d.name, d.embeds.flatMap (lookupMethods table) ++ d.methods)])
    []

/-- Method set of the interface called `name` in `api_interfaces.go`. -/
def methodSetOf (name : String) : List Method :=
  lookupMethods (methodSets declarations) name

/-- A concrete Go type, given by its method set `T`, satisfies an interface
when it has every method of the interface's method set, with the same
signature. -/
def Implements (T : List Method) (iface : String) : Prop :=
  ∀ m ∈ methodSetOf iface, m ∈ T

instance (T : List Method) (iface : String) : Decidable (Implements T iface) :=
  inferInstanceAs (Decidable (∀ m ∈ methodSetOf iface, m ∈ T))

/-! ## Layer 2: the values -/

/-- Source lines 78-82, interface `Responder`.  Go's `interface` values are
`Option α` (`none` is `nil`, `α` the universe of dynamic values), the
`map[string]interface` is its lookup function, Go's `int` is an `Int` (no
arithmetic is done on it). -/
structure Responder (α : Type) where
  Metadata : String → Option (Option α)
  Result : Option α
  StatusCode : Int

/-- The pair `(Responder, error)` a resource method returns; either component
may be `nil`.  A call succeeded when the error is `nil`. -/
abbrev Outcome (α Err : Type) := Option (Responder α) × Option Err

/-- Source lines 41-43, interface `PaginatedFindAll`; `totalCount uint` is a
natural number (no arithmetic is done on it). -/
structure PaginatedFindAll (σ Req α Err : Type) where
  PaginatedFindAll : Req → σ → (Nat × Option (Responder α) × Option Err) × σ

/-- Source lines 46-49, interface `FindAll`. -/
structure FindAll (σ Req α Err : Type) where
  FindAll : Req → σ → Outcome α Err × σ

/-- Source lines 54-56, interface `URLResolver`. -/
structure URLResolver (σ : Type) where
  GetBaseURL : σ → String × σ

/-- Source lines 69-72, interface `RequestAwareURLResolver`: embeds
`URLResolver` and adds `SetRequest`, which returns nothing and so can only
change the receiver.  `H` stands for `http.Request`. -/
structure RequestAwareURLResolver (σ H : Type) extends URLResolver σ where
  SetRequest : H → σ → σ

/-- Upcast: a `RequestAwareURLResolver` used through the `URLResolver`
contract. -/
def RequestAwareURLResolver.asURLResolver {σ H : Type}
    (r : RequestAwareURLResolver σ H) : URLResolver σ :=
  r.toURLResolver

/-! ## The framework's reading of what a resource method returns -/

/-- A call made on a resolver, as an observer records it. -/
inductive ResolverCall (H : Type) where
  | SetRequest (req : H)
  | GetBaseURL
  deriving DecidableEq, Repr

/-- An observed resolver: behaves as `resolver` and appends every call made on
it to a log kept next to the resolver's state. -/
def observed {σ H : Type} (resolver : RequestAwareURLResolver σ H) :
    RequestAwareURLResolver (σ × List (ResolverCall H)) H where
  GetBaseURL := fun st =>
    ((resolver.GetBaseURL st.1).1, ((resolver.GetBaseURL st.1).2, st.2 ++ [.GetBaseURL]))
  SetRequest := fun req st => (resolver.SetRequest req st.1, st.2 ++ [.SetRequest req])

/-- Reads the base URL `n` times in a row, once per generated link. -/
def readBaseURLs {σ : Type} (resolver : URLResolver σ) : Nat → σ → List String × σ
  | 0, s => ([], s)
  | n + 1, s =>
    ((resolver.GetBaseURL s).1 :: (readBaseURLs resolver n (resolver.GetBaseURL s).2).1,
      (readBaseURLs resolver n (resolver.GetBaseURL s).2).2)

/-- Modelled from the spec: the framework's request handling is not in
`api_interfaces.go`.  Section 4.3 of the spec (and source lines 65-68) say that
the framework attaches the request with `SetRequest` and only then reads
`GetBaseURL`, on every invocation; `links` is the number of links the response
needs, each read from `GetBaseURL`. -/
def handleRequest {σ H : Type} (resolver : RequestAwareURLResolver σ H)
    (req : H) (links : Nat) (s : σ) : List String × σ :=
  readBaseURLs resolver.toURLResolver links (resolver.SetRequest req s)

/-- Modelled from the spec: the framework serves requests one after the other
on the same resolver, handling each with `handleRequest`. -/
def serve {σ H : Type} (resolver : RequestAwareURLResolver σ H) :
    List (H × Nat) → σ → List (List String) × σ
  | [], s => ([], s)
  | (req, links) :: rest, s =>
    ((handleRequest resolver req links s).1 ::
        (serve resolver rest (handleRequest resolver req links s).2).1,
      (serve resolver rest (handleRequest resolver req links s).2).2)

/-! ## C3: `SetRequest` before `GetBaseURL` -/

theorem readBaseURLs_observed {σ H : Type} (resolver : RequestAwareURLResolver σ H)
    (n : Nat) (s : σ) (log : List (ResolverCall H)) :
    readBaseURLs (observed resolver).toURLResolver n (s, log) =
      ((readBaseURLs resolver.toURLResolver n s).1,
        ((readBaseURLs resolver.toURLResolver n s).2,
          log ++ List.replicate n ResolverCall.GetBaseURL)) := by
  induction n generalizing s log with
  | zero => simp [readBaseURLs]
  | succ n ih =>
    have hget : (observed resolver).toURLResolver.GetBaseURL (s, log) =
        ((resolver.GetBaseURL s).1,
          ((resolver.GetBaseURL s).2, log ++ [ResolverCall.GetBaseURL])) := rfl
    simp only [readBaseURLs, hget, ih, List.replicate_succ, List.append_assoc,
      List.singleton_append]

theorem handleRequest_observed {σ H : Type} (resolver : RequestAwareURLResolver σ H)
    (req : H) (links : Nat) (s : σ) (log : List (ResolverCall H)) :
    handleRequest (observed resolver) req links (s, log) =
      ((handleRequest resolver req links s).1,
        ((handleRequest resolver req links s).2,
          log ++ ResolverCall.SetRequest req :: List.replicate links ResolverCall.GetBaseURL)) := by
  unfold handleRequest
  have hset : (observed resolver).SetRequest req (s, log) =
      (resolver.SetRequest req s, log ++ [ResolverCall.SetRequest req]) := rfl
  rw [hset, readBaseURLs_observed]
  simp

theorem serve_observed {σ H : Type} (resolver : RequestAwareURLResolver σ H)
    (reqs : List (H × Nat)) (s : σ) (log : List (ResolverCall H)) :
    serve (observed resolver) reqs (s, log) =
      ((serve resolver reqs s).1,
        ((serve resolver reqs s).2,
          log ++ reqs.flatMap
            (fun q => ResolverCall.SetRequest q.1 :: List.replicate q.2 ResolverCall.GetBaseURL))) := by
  induction reqs generalizing s log with
  | nil => simp [serve]
  | cons q rest ih =>
    obtain ⟨req, links⟩ := q
    simp only [serve, handleRequest_observed, ih, List.flatMap_cons, List.append_assoc,
      List.cons_append]

/-- C3: within the handling of every request the framework calls `SetRequest`
on a `RequestAwareURLResolver` before it calls `GetBaseURL`.  The calls an
observer records while one request is handled start with `SetRequest` of that
request, and every `GetBaseURL` among them has that `SetRequest` before it;
the observer changes neither the URLs read nor the resolver's state; and when
requests are served one after the other the log is, request by request,
`SetRequest` of the request followed by its `GetBaseURL` calls. -/
theorem setRequest_precedes_getBaseURL {σ H : Type}
    (resolver : RequestAwareURLResolver σ H) :
    (∀ (req : H) (links : Nat) (s : σ) (log : List (ResolverCall H)),
      ∃ calls : List (ResolverCall H),
        (handleRequest (observed resolver) req links (s, log)).2.2 = log ++ calls ∧
        calls = ResolverCall.SetRequest req :: List.replicate links ResolverCall.GetBaseURL ∧
        (∀ i : Nat, calls[i]? = some ResolverCall.GetBaseURL →
          ∃ j : Nat, j < i ∧ calls[j]? = some (ResolverCall.SetRequest req)) ∧
        (handleRequest (observed resolver) req links (s, log)).1 =
          (handleRequest resolver req links s).1 ∧
        (handleRequest (observed resolver) req links (s, log)).2.1 =
          (handleRequest resolver req links s).2) ∧
    (∀ (reqs : List (H × Nat)) (s : σ),
      (serve (observed resolver) reqs (s, [])).2.2 =
        reqs.flatMap
          (fun q => ResolverCall.SetRequest q.1 :: List.replicate q.2 ResolverCall.GetBaseURL)) := by
  constructor
  · intro req links s log
    refine ⟨_, ?_, rfl, ?_, ?_, ?_⟩
    · rw [handleRequest_observed]
    · intro i hi
      cases i with
      | zero => simp at hi
      | succ k => exact ⟨0, Nat.succ_pos k, by simp⟩
    · rw [handleRequest_observed]
    · rw [handleRequest_observed]
  · intro reqs s
    rw [serve_observed]
    simp

/-! ## C7-C10: the shape of the contracts -/

/-- C8: `RequestAwareURLResolver` extends `URLResolver`: its method set is
exactly `GetBaseURL() string` plus `SetRequest(http.Request)`; every type that
satisfies `RequestAwareURLResolver` also satisfies `URLResolver`; a value used
through the `URLResolver` contract returns the same `GetBaseURL` result; and a
value is exactly a choice of the two methods. -/
theorem requestAware_extends_urlResolver (σ H : Type) :
    methodSetOf "RequestAwareURLResolver" =
      [⟨"GetBaseURL", [], [.string]⟩, ⟨"SetRequest", [.named "http.Request"], []⟩] ∧
    methodSetOf "URLResolver" = [⟨"GetBaseURL", [], [.string]⟩] ∧
    (∀ T : List Method, Implements T "RequestAwareURLResolver" → Implements T "URLResolver") ∧
    (∀ (r : RequestAwareURLResolver σ H) (s : σ),
      r.asURLResolver.GetBaseURL s = r.GetBaseURL s) ∧
    Function.Bijective
      (fun r : RequestAwareURLResolver σ H =>
        ((r.GetBaseURL, r.SetRequest) : (σ → String × σ) × (H → σ → σ))) := by
  refine ⟨by decide, by decide, ?_, fun _ _ => rfl, ?_, ?_⟩
  · intro T hT m hm
    apply hT
    have hset : methodSetOf "URLResolver" = [sigGetBaseURL] := by decide
    have hraw : methodSetOf "RequestAwareURLResolver" = [sigGetBaseURL, sigSetRequest] := by
      decide
    rw [hset] at hm
    rw [hraw]
    simp only [List.mem_singleton] at hm
    simp [hm]
  · intro r1 r2 h
    obtain ⟨⟨g1⟩, s1⟩ := r1
    obtain ⟨⟨g2⟩, s2⟩ := r2
    simp only [Prod.mk.injEq] at h
    obtain ⟨h1, h2⟩ := h
    subst h1 h2
    rfl
  · intro t
    exact ⟨⟨⟨t.1⟩, t.2⟩, rfl⟩

/-- C9: the `Responder` contract exposes exactly the three accessors
`Metadata` (a map from string keys to arbitrary values), `Result` (the
payload) and `StatusCode` (an integer) and validates nothing: for every
metadata map, payload and integer status code there is a Responder whose
accessors return exactly those values, and a Responder is determined by
them. -/
theorem responder_three_accessors (α : Type) :
    methodSetOf "Responder" =
      [⟨"Metadata", [], [.mapOf .string .emptyInterface]⟩,
       ⟨"Result", [], [.emptyInterface]⟩,
       ⟨"StatusCode", [], [.int]⟩] ∧
    (∀ (m : String → Option (Option α)) (p : Option α) (c : Int),
      ∃ r : Responder α, r.Metadata = m ∧ r.Result = p ∧ r.StatusCode = c) ∧
    Function.Bijective
      (fun r : Responder α =>
        ((r.Metadata, r.Result, r.StatusCode) :
          (String → Option (Option α)) × Option α × Int)) := by
  refine ⟨by decide, fun m p c => ⟨⟨m, p, c⟩, rfl, rfl, rfl⟩, ?_, ?_⟩
  · intro r1 r2 h
    cases r1
    cases r2
    simp only [Prod.mk.injEq] at h
    obtain ⟨h1, h2, h3⟩ := h
    subst h1 h2 h3
    rfl
  · intro t
    exact ⟨⟨t.1, t.2.1, t.2.2⟩, rfl⟩

/-- C10: `FindAll` and `PaginatedFindAll` are optional capabilities,
independent of `CRUD` and of each other.  Each has one method,
`FindAll(req) (Responder, error)` and
`PaginatedFindAll(req) (uint, Responder, error)`; `CRUD` has neither method, so
the type with exactly the methods of `CRUD` satisfies `CRUD` and neither of
them; a type satisfies either one exactly when it has that one method; and
every combination of the two capabilities occurs, with or without `CRUD`. -/
theorem findAll_capabilities_optional (σ Req α Err : Type) :
    methodSetOf "FindAll" =
      [⟨"FindAll", [.named "Request"], [.named "Responder", .error]⟩] ∧
    methodSetOf "PaginatedFindAll" =
      [⟨"PaginatedFindAll", [.named "Request"], [.uint, .named "Responder", .error]⟩] ∧
    (∀ m ∈ methodSetOf "CRUD", m.name ≠ "FindAll" ∧ m.name ≠ "PaginatedFindAll") ∧
    (Implements (methodSetOf "CRUD") "CRUD" ∧ ¬ Implements (methodSetOf "CRUD") "FindAll" ∧
      ¬ Implements (methodSetOf "CRUD") "PaginatedFindAll") ∧
    (∀ T : List Method, Implements T "FindAll" ↔
      (⟨"FindAll", [.named "Request"], [.named "Responder", .error]⟩ : Method) ∈ T) ∧
    (∀ T : List Method, Implements T "PaginatedFindAll" ↔
      (⟨"PaginatedFindAll", [.named "Request"], [.uint, .named "Responder", .error]⟩ :
        Method) ∈ T) ∧
    (∃ T : List Method, Implements T "CRUD" ∧ Implements T "FindAll" ∧
      ¬ Implements T "PaginatedFindAll") ∧
    (∃ T : List Method, Implements T "CRUD" ∧ ¬ Implements T "FindAll" ∧
      Implements T "PaginatedFindAll") ∧
    (∃ T : List Method, Implements T "CRUD" ∧ Implements T "FindAll" ∧
      Implements T "PaginatedFindAll") ∧
    (∃ T : List Method, ¬ Implements T "CRUD" ∧ Implements T "FindAll" ∧
      ¬ Implements T "PaginatedFindAll") ∧
    (∃ T : List Method, ¬ Implements T "CRUD" ∧ ¬ Implements T "FindAll" ∧
      Implements T "PaginatedFindAll") ∧
    Function.Bijective
      (fun f : FindAll σ Req α Err =>
        (f.FindAll : Req → σ → (Option (Responder α) × Option Err) × σ)) ∧
    Function.Bijective
      (fun f : PaginatedFindAll σ Req α Err =>
        (f.PaginatedFindAll : Req → σ → (Nat × Option (Responder α) × Option Err) × σ)) := by
  have hfa : methodSetOf "FindAll" = [sigFindAll] := by decide
  have hpfa : methodSetOf "PaginatedFindAll" = [sigPaginatedFindAll] := by decide
  refine ⟨by decide, by decide, by decide, ⟨by decide, by decide, by decide⟩, ?_, ?_,
    ⟨methodSetOf "CRUD" ++ [sigFindAll], by decide, by decide, by decide⟩,
    ⟨methodSetOf "CRUD" ++ [sigPaginatedFindAll], by decide, by decide, by decide⟩,
    ⟨methodSetOf "CRUD" ++ [sigFindAll, sigPaginatedFindAll], by decide, by decide, by decide⟩,
    ⟨[sigFindAll], by decide, by decide, by decide⟩,
    ⟨[sigPaginatedFindAll], by decide, by decide, by decide⟩, ⟨?_, ?_⟩, ⟨?_, ?_⟩⟩
  · intro T
    unfold Implements
    rw [hfa]
    simp [sigFindAll]
  · intro T
    unfold Implements
    rw [hpfa]
    simp [sigPaginatedFindAll]
  · intro f1 f2 h
    cases f1
    cases f2
    simp only at h
    subst h
    rfl
  · intro g
    exact ⟨⟨g⟩, rfl⟩
  · intro f1 f2 h
    cases f1
    cases f2
    simp only at h
    subst h
    rfl
  · intro g
    exact ⟨⟨g⟩, rfl⟩

end Api2go
